import Mathlib

/-!
Verification development for the Smart_Poly_Culture irrigation chatbot
(`src/app.py`).  The Python functions are shallowly embedded as executable
Lean definitions over `List Char` / `String`; the mutable numpy grid
`water_status` becomes explicit state passing over `Grid := Fin 5 → Fin 5 → Nat`.
Regular-expression searches are embedded for the concrete patterns the code
uses (word-boundary searches, `turn\s+X` phrases, `water .* on`), restricted to
ASCII text, which is the domain the application works in.
-/

namespace SmartPoly

/-! ## Character classes (ASCII model of Python `str.lower`, `\w`, `\s`, `[a-zA-Z]`, `\d`) -/

def isAsciiLetter (c : Char) : Bool :=
  ('a' ≤ c && c ≤ 'z') || ('A' ≤ c && c ≤ 'Z')

def isAsciiDigit (c : Char) : Bool :=
  '0' ≤ c && c ≤ '9'

/-- Python `\w` (ASCII): letters, digits, underscore; used for `\b` boundaries. -/
def isWordChar (c : Char) : Bool :=
  isAsciiLetter c || isAsciiDigit c || c == '_'

/-- Python `\s` (ASCII): space, tab, newline, carriage return, vertical tab, form feed. -/
def isPySpace (c : Char) : Bool :=
  c == ' ' || c == '\t' || c == '\n' || c == '\r' || c == '\x0b' || c == '\x0c'

def lowerAscii (c : Char) : Char :=
  if 'A' ≤ c && c ≤ 'Z' then Char.ofNat (c.toNat + 32) else c

def upperAscii (c : Char) : Char :=
  if 'a' ≤ c && c ≤ 'z' then Char.ofNat (c.toNat - 32) else c

/-- Model of `text.lower()` as a character list. -/
def lowerList (s : String) : List Char := s.data.map lowerAscii

/-! ## Word-boundary regex searches used by `classify_intent` -/

/-- The pattern (a literal string of word characters) occurs at index `i` of `t`. -/
def listAt (t : List Char) (i : Nat) (pat : List Char) : Bool :=
  pat.isPrefixOf (t.drop i)

/-- Word boundary `\b` holds just before index `i` (pattern starts with a word char). -/
def boundaryBefore (t : List Char) (i : Nat) : Bool :=
  i == 0 || !(isWordChar (t.getD (i - 1) ' '))

/-- Word boundary `\b` holds just after index `j` (pattern ends with a word char);
the default `' '` covers the end of the string. -/
def boundaryAfter (t : List Char) (j : Nat) : Bool :=
  !(isWordChar (t.getD j ' '))

/-- Occurrence of `re.search(r"\b<pat>\b", t)` at index `i`; `pat` starts and ends
with word characters (true for every keyword the code uses). -/
def wordAt (t : List Char) (i : Nat) (pat : List Char) : Bool :=
  listAt t i pat && boundaryBefore t i && boundaryAfter t (i + pat.length)

/-- Model of `re.search(r"\b<pat>\b", t) is not None`. -/
def searchWord (t : List Char) (pat : List Char) : Bool :=
  (List.range t.length).any (fun i => wordAt t i pat)

/-- Number of indices at which `\b<pat>\b` matches (whole-word occurrence count). -/
def countWordOcc (t : List Char) (pat : List Char) : Nat :=
  ((List.range t.length).filter (fun i => wordAt t i pat)).length

/-- Match of `\bturn\s+<second>\b` starting at index `i`.  Since `\s` and the
letters of `second` are disjoint, the greedy space run is the only viable
choice for `\s+`. -/
def turnPhraseAt (t : List Char) (i : Nat) (second : List Char) : Bool :=
  boundaryBefore t i && listAt t i ("turn".data) &&
    (let r := t.drop (i + 4)
     let sp := (r.takeWhile isPySpace).length
     (sp != 0) && second.isPrefixOf (r.drop sp) &&
       !(isWordChar ((r.drop sp).getD second.length ' ')))

/-- Model of `re.search(r"\bturn\s+<second>\b", t) is not None`. -/
def turnPhrase (t : List Char) (second : List Char) : Bool :=
  (List.range t.length).any (fun i => turnPhraseAt t i second)

/-- Model of `re.search(r"\bwater\b.*\bon\b", t) is not None`: a whole-word
`water` followed by a whole-word `on`, with no newline in between (`.` does not
match a newline). -/
def waterOn (t : List Char) : Bool :=
  (List.range t.length).any (fun i =>
    wordAt t i ("water".data) &&
      (List.range t.length).any (fun j =>
        wordAt t j ("on".data) && (i + 5 ≤ j) &&
          ((t.drop (i + 5)).take (j - (i + 5))).all (fun c => c != '\n')))

/-! ## Intent classifier (`classify_intent`) -/

def on_keywords : List String := ["start", "activate", "open", "begin", "enable", "on"]
def off_keywords : List String := ["stop", "deactivate", "close", "end", "disable", "off"]
def status_keywords : List String := ["status", "check", "how are", "what is", "report"]

/-- Number of keywords of the set that occur (at least once) as a whole word;
this is the `sum(1 for keyword in kws if re.search(...))` count of the source,
which counts keywords that are present, not their repetitions. -/
def presCount (t : List Char) (kws : List String) : Nat :=
  (kws.filter (fun k => searchWord t k.data)).length

/-- The strict-majority block of the classifier: the intent whose count
strictly exceeds both others wins; ties (including all-zero) give Unknown. -/
def scoreIntent (onC offC stC : Nat) : String :=
  if onC > offC && onC > stC then "TurnOnWater"
  else if offC > onC && offC > stC then "TurnOffWater"
  else if stC > onC && stC > offC then "GetStatus"
  else "Unknown"

def classify_intent (text : String) : String :=
  let t := lowerList text
  if turnPhrase t ("off".data) || turnPhrase t ("of".data) then "TurnOffWater"
  else if turnPhrase t ("on".data) || waterOn t then "TurnOnWater"
  else scoreIntent (presCount t on_keywords) (presCount t off_keywords) (presCount t status_keywords)

/-! ## Location parser (`parse_location`) -/

/-- Match of `bed\s+(\d+)` starting at index `i`, returning the number denoted
by the (maximal) digit group. -/
def bedDigitsAt (t : List Char) (i : Nat) : Option Nat :=
  if ("bed".data).isPrefixOf (t.drop i) then
    let r := t.drop (i + 3)
    let sp := (r.takeWhile isPySpace).length
    if sp == 0 then none
    else
      let ds := (r.drop sp).takeWhile isAsciiDigit
      if ds.isEmpty then none
      else some (ds.foldl (fun a c => 10 * a + (c.toNat - 48)) 0)
  else none

def findFirstSome {α : Type} (f : Nat → Option α) : List Nat → Option α
  | [] => none
  | i :: is =>
    match f i with
    | some v => some v
    | none => findFirstSome f is

/-- Model of `re.search(r"bed\s+(\d+)", t)`: leftmost match, digit group as a number. -/
def findBedDigits (t : List Char) : Option Nat :=
  findFirstSome (bedDigitsAt t) (List.range t.length)

def numberWords : List (String × Nat) :=
  [("one", 1), ("two", 2), ("three", 3), ("four", 4), ("five", 5)]

/-- Match of `bed\s+(one|two|three|four|five)` starting at index `i`; the
alternatives are tried in order (they are mutually non-prefix, so at most one
can match at a given position). -/
def bedWordAt (t : List Char) (i : Nat) : Option Nat :=
  if ("bed".data).isPrefixOf (t.drop i) then
    let r := t.drop (i + 3)
    let sp := (r.takeWhile isPySpace).length
    if sp == 0 then none
    else (numberWords.find? (fun wv => (wv.1.data).isPrefixOf (r.drop sp))).map (fun wv => wv.2)
  else none

/-- Model of `re.search(r"bed\s+(one|two|three|four|five)", t)`: leftmost match,
mapped through `words_to_num`. -/
def findBedWordNum (t : List Char) : Option Nat :=
  findFirstSome (bedWordAt t) (List.range t.length)

/-- The number-word branch of `parse_location`: `words_to_num` value with the
same bounds check. -/
def bedWordResult (t : List Char) : Option Nat :=
  match findBedWordNum t with
  | some m => if 1 ≤ m && m ≤ 5 then some (m - 1) else none
  | none => none

/-- Embedding of `parse_location`: the digit pattern is searched first and its
in-bounds result returned; otherwise (no digit match, or an out-of-bounds
index) the code falls through to the number-word pattern. -/
def parse_location (text : String) : Option Nat :=
  let t := lowerList text
  let d :=
    match findBedDigits t with
    | some n => if 1 ≤ n && n ≤ 5 then some (n - 1) else none
    | none => none
  match d with
  | some idx => some idx
  | none => bedWordResult t

/-! ## Intensity parser (`parse_intensity`) -/

/-- Substring containment, Python `pat in t`. -/
def containsSub (pat : List Char) : List Char → Bool
  | [] => pat.isEmpty
  | c :: cs => pat.isPrefixOf (c :: cs) || containsSub pat cs

def shower_keywords : List String := ["shower", "heavy", "high", "fast", "spray", "bulk", "lots"]
def drip_keywords : List String := ["drip", "slow", "light", "gentle"]

def parse_intensity (text : String) : Nat :=
  let t := lowerList text
  if shower_keywords.any (fun k => containsSub k.data t) then 2
  else if drip_keywords.any (fun k => containsSub k.data t) then 1
  else 1

/-! ## Tokenizer (`re.findall(r"[a-zA-Z]+", text_lower)`) -/

def tokenizeAux : List Char → List Char → List String
  | [], cur => if cur.isEmpty then [] else [String.mk cur.reverse]
  | c :: cs, cur =>
    if isAsciiLetter c then tokenizeAux cs (c :: cur)
    else if cur.isEmpty then tokenizeAux cs []
    else String.mk cur.reverse :: tokenizeAux cs []

/-- Maximal runs of ASCII letters, in order. -/
def tokenize (t : List Char) : List String := tokenizeAux t []

/-! ## Plant tables -/

def plant_map : List (String × String) :=
  [("basil", "Ba"), ("beans", "Be"), ("beetroot", "Bt"),
   ("carrot", "Ca"), ("tomato", "To"), ("all", "all")]

def PLANT_SYNONYMS : List (String × String) :=
  [("basil", "Ba"), ("herb", "Ba"), ("basils", "Ba"),
   ("beans", "Be"), ("bean", "Be"), ("green beans", "Be"),
   ("beetroot", "Bt"), ("beet", "Bt"), ("beets", "Bt"),
   ("carrot", "Ca"), ("carrots", "Ca"),
   ("tomato", "To"), ("tomatoes", "To"), ("tomoto", "To")]

def synonyms_list : List String := PLANT_SYNONYMS.map Prod.fst

/-! ## Model of `difflib.SequenceMatcher` / `get_close_matches`

`ratio()` is `2*M/T` where `M` is the total size of the matching blocks and
`T` the sum of the lengths; the comparison with the cutoff `0.75` is exact on
the rationals (for the short strings involved, float rounding cannot cross the
threshold, and `0.75` is exactly representable).  `quick_ratio` and
`real_quick_ratio` are upper bounds on `ratio`, so filtering by `ratio` alone
selects the same candidates. -/

/-- Indices of `b` holding character `c`, ascending (the `b2j` rows). -/
def indicesOf (c : Char) (b : List Char) : List Nat :=
  (List.range b.length).filter (fun j => b.getD j ' ' == c)

/-- One row of `find_longest_match`: processes all positions `j` of `b`
matching `a i`, building the new run-length table and updating the best block
(strict improvement only, so the earliest block of maximal size wins). -/
def flmRow (j2len : Nat → Nat) (i : Nat) (js : List Nat) (best : Nat × Nat × Nat) :
    (Nat → Nat) × (Nat × Nat × Nat) :=
  js.foldl
    (fun st j =>
      let k := (if j == 0 then 0 else j2len (j - 1)) + 1
      let nj : Nat → Nat := fun j2 => if j2 == j then k else st.1 j2
      let b2 := if k > st.2.2.2 then (i + 1 - k, j + 1 - k, k) else st.2
      (nj, b2))
    ((fun _ => 0), best)

/-- `SequenceMatcher.find_longest_match` on whole lists (no junk, no autojunk
for the short strings involved): returns `(besti, bestj, bestsize)`. -/
def flm (a b : List Char) : Nat × Nat × Nat :=
  ((List.range a.length).foldl
    (fun (st : (Nat → Nat) × (Nat × Nat × Nat)) i =>
      flmRow st.1 i (indicesOf (a.getD i ' ') b) st.2)
    ((fun _ => 0), (0, 0, 0))).2

/-- Total size of the matching blocks (the `M` of `ratio()`), by the
divide-and-conquer of `get_matching_blocks`.  The fuel only bounds the
recursion depth; `a.length + b.length + 1` always suffices because each
recursive call strictly shrinks the combined length. -/
def matchingTotal : Nat → List Char → List Char → Nat
  | 0, _, _ => 0
  | fuel + 1, a, b =>
    let r := flm a b
    if r.2.2 == 0 then 0
    else
      matchingTotal fuel (a.take r.1) (b.take r.2.1) + r.2.2 +
        matchingTotal fuel (a.drop (r.1 + r.2.2)) (b.drop (r.2.1 + r.2.2))

/-- The `M` of `SequenceMatcher(a, b).ratio()`. -/
def ratioM (a b : List Char) : Nat :=
  matchingTotal (a.length + b.length + 1) a b

/-- Python string `<` (code-point lexicographic). -/
def charListLt : List Char → List Char → Bool
  | [], [] => false
  | [], _ :: _ => true
  | _ :: _, [] => false
  | c :: cs, d :: ds =>
    if c.toNat < d.toNat then true
    else if d.toNat < c.toNat then false
    else charListLt cs ds

/-- Tuple comparison used by `heapq.nlargest` on `(ratio, candidate)` pairs:
the candidate stored as `(M, T, name)` beats the current best if its ratio
`2M/T` is larger, or equal with a lexicographically larger name. -/
def closeBetter (cand best : Nat × Nat × String) : Bool :=
  (cand.1 * best.2.1 > best.1 * cand.2.1) ||
    (cand.1 * best.2.1 == best.1 * cand.2.1 && charListLt best.2.2.data cand.2.2.data)

/-- Model of `difflib.get_close_matches(word, poss, n=1, cutoff=0.75)`:
the best accepted candidate, if any.  Acceptance `2M/T ≥ 3/4` is `8M ≥ 3T`. -/
def get_close_match1 (word : String) (poss : List String) : Option String :=
  (poss.foldl
    (fun (best : Option (Nat × Nat × String)) x =>
      let M := ratioM x.data word.data
      let T := x.data.length + word.data.length
      if 3 * T ≤ 8 * M then
        match best with
        | none => some (M, T, x)
        | some b => if closeBetter (M, T, x) b then some (M, T, x) else some b
      else best)
    none).map (fun b => b.2.2)

/-! ## Plant extractor (`extract_plants`) -/

/-- First `plant_map` entry holding the given code under a non-"all" name
(the inner `for original_name, code in plant_map.items(): ... break` loop). -/
def firstNameForCode (code : String) : Option String :=
  (plant_map.find? (fun kv => kv.2 == code && !(kv.1 == "all"))).map Prod.fst

/-- Append with the `if original_name not in plants_found` dedup check. -/
def appendName (acc : List String) (name : String) : List String :=
  if acc.contains name then acc else acc ++ [name]

/-- Resolution of a plant code to its catalog name followed by the dedup
append (shared tail of the exact and fuzzy steps). -/
def addCode (acc : List String) (code : String) : List String :=
  match firstNameForCode code with
  | some name => appendName acc name
  | none => acc

/-- One exact-pass step: a token that is a synonym key contributes its pretty
source name. -/
def exactStep (acc : List String) (token : String) : List String :=
  match PLANT_SYNONYMS.lookup token with
  | some code => addCode acc code
  | none => acc

/-- The exact-match pass over all tokens. -/
def exactPass (tokens : List String) : List String :=
  tokens.foldl exactStep []

/-- One fuzzy-pass step: the best close synonym of the token, if accepted,
contributes its name. -/
def fuzzyStep (acc : List String) (token : String) : List String :=
  match get_close_match1 token synonyms_list with
  | some syn =>
    match PLANT_SYNONYMS.lookup syn with
    | some code => addCode acc code
    | none => acc
  | none => acc

/-- The fuzzy pass over all tokens (run from the empty found-list, which is
what `plants_found` is when the pass runs). -/
def fuzzyPass (tokens : List String) : List String :=
  tokens.foldl fuzzyStep []

def all_keywords : List String :=
  ["all", "everything", "every plant", "whole garden", "entire garden"]

/-- The all-keyword check and the final safe fallback of `extract_plants`. -/
def finalizePlants (t : List Char) (found : List String) : List String :=
  let found2 := if all_keywords.any (fun k => containsSub k.data t) && found.isEmpty
                then ["all"] else found
  if found2.isEmpty then ["all"] else found2

def extract_plants (text : String) : List String :=
  let t := lowerList text
  let tokens := tokenize t
  let found1 := exactPass tokens
  let found2 := if found1.isEmpty && !tokens.isEmpty then fuzzyPass tokens else found1
  finalizePlants t found2

/-! ## Watering grid and command processor (`plant_matrix`, `water_status`, `process_command`) -/

abbrev Grid := Fin 5 → Fin 5 → Nat

/-- The fixed 5×5 garden layout. -/
def plant_matrix : Fin 5 → Fin 5 → String := fun i j =>
  ([["Be", "Ba", "Ca", "Bt", "To"],
    ["To", "Bt", "Ba", "Be", "Ca"],
    ["To", "Bt", "Be", "Ba", "Ca"],
    ["Bt", "Ba", "To", "Be", "Ca"],
    ["Ba", "Be", "Ca", "To", "Bt"]].getD i.val []).getD j.val ""

/-- Row scoping: the whole grid when no bed index was parsed, otherwise the
single row.  The pipeline only ever supplies `none` or an index below 5. -/
def inScope (bed : Option Nat) (i : Fin 5) : Bool :=
  match bed with
  | none => true
  | some b => i.val == b

/-- Masked assignment `water_status[plant_matrix == code] = v` (row-restricted
when a bed index is given). -/
def setMatching (bed : Option Nat) (code : String) (v : Nat) (g : Grid) : Grid :=
  fun i j => if inScope bed i && plant_matrix i j == code then v else g i j

/-- `water_status.fill(v)` or `water_status[bed, :] = v`. -/
def fillScope (bed : Option Nat) (v : Nat) (g : Grid) : Grid :=
  fun i j => if inScope bed i then v else g i j

/-- The per-plant-code assignment loop of the non-"all" branches. -/
def applyCodes (bed : Option Nat) (v : Nat) (codes : List String) (g : Grid) : Grid :=
  codes.foldl (fun g c => setMatching bed c v g) g

/-- Python `str.capitalize()` on ASCII text. -/
def capitalizePy (s : String) : String :=
  match s.data with
  | [] => ""
  | c :: cs => String.mk (upperAscii c :: cs.map lowerAscii)

/-- `pretty.get(name.lower(), name)` where `pretty` maps each `plant_map` key
to its capitalization. -/
def prettyGet (name : String) : String :=
  let low := String.mk (lowerList name)
  if (plant_map.lookup low).isSome then capitalizePy low else name

/-- The joined pretty plant names of the confirmation replies. -/
def joinNames (plant_names : List String) : String :=
  String.intercalate ", " ((plant_names.filter (fun n => !(n == "all"))).map prettyGet)

def allCells : List (Fin 5 × Fin 5) :=
  (List.finRange 5).flatMap (fun i => (List.finRange 5).map (fun j => (i, j)))

/-- Number of grid cells holding `v` (the `np.sum(water_status == v)` counts). -/
def countCells (g : Grid) (v : Nat) : Nat :=
  allCells.countP (fun p => g p.1 p.2 == v)

def unknownPlantsReply : String :=
  "Sorry, I don\x27t recognize those plants. Available plants: Basil, Beans, Beetroot, Carrot, Tomato."

def intensityWord (intensity : Nat) : String :=
  if intensity == 2 then "SHOWER" else "DRIP"

def statusReply (g : Grid) : String :=
  "Current watering status: " ++ toString (countCells g 1) ++ " drip, " ++
    toString (countCells g 2) ++ " shower out of " ++ toString (25 : Nat) ++ " plants."

/-- Resolution of plant names to codes, dropping unknown names and falsy
codes: `plant_codes = [plant_map.get(name) ...]` followed by the truthiness
filter. -/
def lookupCodes (plant_names : List String) : List String :=
  ((plant_names.map (fun n => plant_map.lookup n)).filterMap id).filter (fun c => !(c == ""))

/-- Names the catalog can resolve to a truthy (non-empty) code; everything
`extract_plants` ever returns satisfies this. -/
def isCatalogName (n : String) : Bool :=
  match plant_map.lookup n with
  | some c => !(c == "")
  | none => false

/-- Embedding of `process_command`: returns the reply together with the new
grid (the in-place mutation of `water_status` made explicit). -/
def process_command (intent : String) (plant_names : List String) (intensity : Nat)
    (bed_index : Option Nat) (g : Grid) : String × Grid :=
  let plant_codes := lookupCodes plant_names
  if plant_codes.isEmpty then
    (unknownPlantsReply, g)
  else if intent == "TurnOnWater" then
    if plant_codes.contains "all" then
      ("Turning on water for all plants (" ++ intensityWord intensity ++ ").",
        fillScope bed_index intensity g)
    else
      ("Turning on water for " ++ joinNames plant_names ++ " (" ++ intensityWord intensity ++ ").",
        applyCodes bed_index intensity plant_codes g)
  else if intent == "TurnOffWater" then
    if plant_codes.contains "all" then
      ("Turning off water for all plants.", fillScope bed_index 0 g)
    else
      ("Turning off water for " ++ joinNames plant_names ++ ".",
        applyCodes bed_index 0 plant_codes g)
  else if intent == "GetStatus" then
    (statusReply g, g)
  else
    ("Sorry, I didn\x27t understand that command. Try \x27turn on basil\x27 or \x27turn off all plants\x27.", g)

/-! ## The `/ask` endpoint -/

/-- Embedding of the body of the `ask` handler after the empty-message check:
classification, slot extraction and command processing. -/
def askPipeline (user_input : String) (g : Grid) : String × Grid :=
  let intent := classify_intent user_input
  let plant_names := extract_plants user_input
  let bed_index := parse_location user_input
  let intensity := if intent == "TurnOnWater" then parse_intensity user_input else 0
  process_command intent plant_names intensity bed_index g

/-- Embedding of the `ask` route handler; `none` models a request whose JSON
carries no "message" field (`data.get("message", "")`). -/
def ask (msg : Option String) (g : Grid) : String × Grid :=
  let user_input := msg.getD ""
  if user_input == "" then ("Please send a message.", g)
  else askPipeline user_input g

/-- Recovery boundary of the `ask` route: the `try/except` converts any raised
exception into the literal apology reply (HTTP success), leaving the grid as
the raise left it; a normal outcome passes through unchanged. -/
def askBoundary (outcome : Except String (String × Grid)) (g : Grid) : String × Grid :=
  match outcome with
  | Except.ok r => r
  | Except.error _ => ("Sorry, I encountered an error.", g)

/-- Grid state after running a sequence of `/ask` messages from the initial
all-OFF grid. -/
def runMsgs (msgs : List String) : Grid :=
  msgs.foldl (fun g m => (ask (some m) g).2) (fun _ _ => 0)

/-! ## Spec-side reference definitions used to settle refinement claims -/

/-- Definition following the words of the spec for the third classifier tier:
the keyword sets are scored by whole-word *occurrence* counts (repetitions of
a keyword all count), the explicit phrase tiers being as in the source. -/
def spec_classify_occurrences (text : String) : String :=
  let t := lowerList text
  if turnPhrase t ("off".data) || turnPhrase t ("of".data) then "TurnOffWater"
  else if turnPhrase t ("on".data) || waterOn t then "TurnOnWater"
  else
    let onC := (on_keywords.map (fun k => countWordOcc t k.data)).sum
    let offC := (off_keywords.map (fun k => countWordOcc t k.data)).sum
    let stC := (status_keywords.map (fun k => countWordOcc t k.data)).sum
    if onC > offC && onC > stC then "TurnOnWater"
    else if offC > onC && offC > stC then "TurnOffWater"
    else if stC > onC && stC > offC then "GetStatus"
    else "Unknown"

/-- Definition following the words of the spec for the location parser: only
one of the two patterns is attempted per call, the digit pattern first and
taking precedence, so a digit match that is out of bounds yields no location
rather than falling through to the number-word pattern. -/
def spec_parse_location_onepass (text : String) : Option Nat :=
  let t := lowerList text
  match findBedDigits t with
  | some n => if 1 ≤ n && n ≤ 5 then some (n - 1) else none
  | none => bedWordResult t

/-! ## Theorems -/

/-- Claim C1: POST /ask with message "turn on basil", from any grid state,
replies exactly "Turning on water for Basil (DRIP)." and afterwards every cell
whose layout entry is "Ba" holds 1 (DRIP) while every other cell keeps its
previous value. -/
theorem C1_turn_on_basil (g : Grid) :
    ask (some "turn on basil") g =
      ("Turning on water for Basil (DRIP).",
        fun i j => if plant_matrix i j = "Ba" then 1 else g i j) := by
  have h : ask (some "turn on basil") g =
      ("Turning on water for Basil (DRIP).", setMatching none "Ba" 1 g) := rfl
  rw [h]
  congr 1
  funext i j
  simp [setMatching, inScope]

/-- Claim C2: processing "turn on basil in bed 2" mutates only the cells of
row index 1 whose layout code is "Ba", setting them to the requested (DRIP)
intensity; every other cell is unchanged. -/
theorem C2_turn_on_basil_bed2 (g : Grid) :
    ask (some "turn on basil in bed 2") g =
      ("Turning on water for Basil (DRIP).",
        fun i j => if i.val = 1 ∧ plant_matrix i j = "Ba" then 1 else g i j) := by
  have h : ask (some "turn on basil in bed 2") g =
      ("Turning on water for Basil (DRIP).", setMatching (some 1) "Ba" 1 g) := rfl
  rw [h]
  congr 1
  funext i j
  simp [setMatching, inScope]

/-- Claim C9: an empty or missing "message" yields the literal prompt reply
with no processing (grid unchanged), and the request boundary converts any
internal exception into the literal apology reply (a normal reply, never an
HTTP error). -/
theorem C9_empty_message_and_recovery :
    (∀ g : Grid, ask none g = ("Please send a message.", g)) ∧
    (∀ g : Grid, ask (some "") g = ("Please send a message.", g)) ∧
    (∀ (e : String) (g : Grid),
      askBoundary (Except.error e) g = ("Sorry, I encountered an error.", g)) :=
  ⟨fun _ => rfl, fun _ => rfl, fun _ _ => rfl⟩

/-- Pointwise characterization of the per-code assignment loop: a cell is set
to `v` exactly when some processed code matches it, later writes overwriting
earlier ones with the same value. -/
theorem applyCodes_apply (bed : Option Nat) (v : Nat) (codes : List String) (g : Grid) :
    applyCodes bed v codes g =
      fun i j => if codes.any (fun c => inScope bed i && plant_matrix i j == c) then v
                 else g i j := by
  induction codes generalizing g with
  | nil => funext i j; simp [applyCodes]
  | cons c cs ih =>
    have h1 : applyCodes bed v (c :: cs) g = applyCodes bed v cs (setMatching bed c v g) := rfl
    funext i j
    rw [h1, ih]
    simp only [List.any_cons, setMatching, Bool.or_eq_true]
    by_cases hc : (inScope bed i && plant_matrix i j == c) = true <;>
      by_cases hcs : (cs.any fun x => inScope bed i && plant_matrix i j == x) = true <;>
        simp [hc, hcs]

/-- Grid effect of `process_command` on a TurnOnWater intent, by branch. -/
theorem process_turnOn_snd (plant_names : List String) (intensity : Nat)
    (bed : Option Nat) (g : Grid) :
    (process_command "TurnOnWater" plant_names intensity bed g).2 =
      if (lookupCodes plant_names).isEmpty = true then g
      else if "all" ∈ lookupCodes plant_names then fillScope bed intensity g
      else applyCodes bed intensity (lookupCodes plant_names) g := by
  by_cases h0 : (lookupCodes plant_names).isEmpty = true
  · simp [process_command, h0]
  · by_cases h1 : "all" ∈ lookupCodes plant_names <;>
      simp [process_command, h0, h1]

/-- Claim C3: for every TurnOnWater command (any plant-name list, intensity
and optional in-range bed index) and every starting grid, processing the
command twice leaves the same grid as processing it once. -/
theorem C3_turn_on_idempotent (plant_names : List String) (intensity : Nat)
    (bed : Option Nat) (g : Grid) (_hbed : ∀ b, bed = some b → b < 5) :
    (process_command "TurnOnWater" plant_names intensity bed
        ((process_command "TurnOnWater" plant_names intensity bed g).2)).2 =
      (process_command "TurnOnWater" plant_names intensity bed g).2 := by
  clear _hbed
  simp only [process_turnOn_snd]
  by_cases h0 : (lookupCodes plant_names).isEmpty = true
  · simp [h0]
  · by_cases h1 : "all" ∈ lookupCodes plant_names
    · simp only [h0, h1, if_false, if_true]
      funext i j
      by_cases hs : inScope bed i = true <;> simp [fillScope, hs]
    · simp only [h0, h1, if_false, if_true, applyCodes_apply]
      funext i j
      by_cases hc :
          ((lookupCodes plant_names).any fun c => inScope bed i && plant_matrix i j == c) =
            true <;> simp [hc]

/-- Witness for C3 at a concrete command and grid. -/
theorem C3_witness :
    (process_command "TurnOnWater" ["basil"] 2 (some 1)
        ((process_command "TurnOnWater" ["basil"] 2 (some 1) (fun _ _ => 0)).2)).2 =
      (process_command "TurnOnWater" ["basil"] 2 (some 1) (fun _ _ => 0)).2 :=
  C3_turn_on_idempotent ["basil"] 2 (some 1) (fun _ _ => 0)
    (fun b hb => by injection hb with h; omega)

/-! ### Catalog-membership invariants of the plant extractor -/

theorem plantMap_names_good : ∀ kv ∈ plant_map, isCatalogName kv.1 = true := by decide

theorem firstNameForCode_good {c n : String} (h : firstNameForCode c = some n) :
    isCatalogName n = true := by
  unfold firstNameForCode at h
  cases hf : plant_map.find? (fun kv => kv.2 == c && !(kv.1 == "all")) with
  | none => rw [hf] at h; cases h
  | some kv =>
    rw [hf] at h
    injection h with h'
    exact h' ▸ plantMap_names_good kv (List.mem_of_find?_eq_some hf)

theorem mem_appendName_of_mem {acc : List String} {m n : String} (h : n ∈ acc) :
    n ∈ appendName acc m := by
  unfold appendName
  split
  · exact h
  · exact List.mem_append_left _ h

theorem self_mem_appendName (acc : List String) (m : String) : m ∈ appendName acc m := by
  unfold appendName
  split
  · next hc => exact List.elem_iff.mp hc
  · exact List.mem_append_right _ (List.mem_singleton.mpr rfl)

theorem mem_appendName {acc : List String} {m n : String} (h : n ∈ appendName acc m) :
    n ∈ acc ∨ n = m := by
  unfold appendName at h
  split at h
  · exact Or.inl h
  · rcases List.mem_append.mp h with h' | h'
    · exact Or.inl h'
    · exact Or.inr (List.mem_singleton.mp h')

theorem mem_addCode_of_mem {acc : List String} {c n : String} (h : n ∈ acc) :
    n ∈ addCode acc c := by
  unfold addCode
  cases hf : firstNameForCode c
  · exact h
  · exact mem_appendName_of_mem h

theorem addCode_good {acc : List String} {c : String}
    (hacc : ∀ n ∈ acc, isCatalogName n = true) :
    ∀ n ∈ addCode acc c, isCatalogName n = true := by
  intro n hn
  unfold addCode at hn
  cases hf : firstNameForCode c with
  | none => rw [hf] at hn; exact hacc n hn
  | some name =>
    rw [hf] at hn
    rcases mem_appendName hn with h | rfl
    · exact hacc n h
    · exact firstNameForCode_good hf

theorem mem_exactStep_of_mem {acc : List String} {tok n : String} (h : n ∈ acc) :
    n ∈ exactStep acc tok := by
  unfold exactStep
  cases hl : PLANT_SYNONYMS.lookup tok
  · exact h
  · exact mem_addCode_of_mem h

theorem exactStep_good {acc : List String} {tok : String}
    (hacc : ∀ n ∈ acc, isCatalogName n = true) :
    ∀ n ∈ exactStep acc tok, isCatalogName n = true := by
  intro n hn
  unfold exactStep at hn
  cases hl : PLANT_SYNONYMS.lookup tok with
  | none => rw [hl] at hn; exact hacc n hn
  | some c => rw [hl] at hn; exact addCode_good hacc n hn

theorem fuzzyStep_good {acc : List String} {tok : String}
    (hacc : ∀ n ∈ acc, isCatalogName n = true) :
    ∀ n ∈ fuzzyStep acc tok, isCatalogName n = true := by
  intro n hn
  unfold fuzzyStep at hn
  cases h1 : get_close_match1 tok synonyms_list with
  | none => rw [h1] at hn; exact hacc n hn
  | some syn =>
    rw [h1] at hn
    have hn' : n ∈ (match PLANT_SYNONYMS.lookup syn with
        | some code => addCode acc code
        | none => acc) := hn
    cases h2 : PLANT_SYNONYMS.lookup syn with
    | none => rw [h2] at hn'; exact hacc n hn'
    | some c => rw [h2] at hn'; exact addCode_good hacc n hn'

theorem foldl_exactStep_mem_of_mem (ts : List String) (acc : List String) {n : String}
    (h : n ∈ acc) : n ∈ ts.foldl exactStep acc := by
  induction ts generalizing acc with
  | nil => exact h
  | cons t ts ih => exact ih _ (mem_exactStep_of_mem h)

theorem foldl_exactStep_good (ts : List String) (acc : List String)
    (h : ∀ n ∈ acc, isCatalogName n = true) :
    ∀ n ∈ ts.foldl exactStep acc, isCatalogName n = true := by
  induction ts generalizing acc with
  | nil => exact h
  | cons t ts ih => exact ih _ (exactStep_good h)

theorem foldl_fuzzyStep_good (ts : List String) (acc : List String)
    (h : ∀ n ∈ acc, isCatalogName n = true) :
    ∀ n ∈ ts.foldl fuzzyStep acc, isCatalogName n = true := by
  induction ts generalizing acc with
  | nil => exact h
  | cons t ts ih => exact ih _ (fuzzyStep_good h)

theorem tomato_mem_foldl_exactStep (ts : List String) (acc : List String)
    (h : "tomoto" ∈ ts) : "tomato" ∈ ts.foldl exactStep acc := by
  induction ts generalizing acc with
  | nil => cases h
  | cons t ts ih =>
    rcases List.mem_cons.mp h with rfl | h'
    · show "tomato" ∈ ts.foldl exactStep (exactStep acc "tomoto")
      have he : exactStep acc "tomoto" = appendName acc "tomato" := rfl
      exact foldl_exactStep_mem_of_mem ts _ (he ▸ self_mem_appendName acc "tomato")
    · exact ih _ h'

theorem finalizePlants_good (t : List Char) (found : List String)
    (hf : ∀ n ∈ found, isCatalogName n = true) :
    ∀ n ∈ finalizePlants t found, isCatalogName n = true := by
  intro n hn
  simp only [finalizePlants] at hn
  by_cases c1 : ((all_keywords.any fun k => containsSub k.data t) && found.isEmpty) = true
  · simp only [c1, if_true] at hn
    simp at hn
    subst hn
    decide
  · simp only [c1, if_false] at hn
    by_cases c2 : found.isEmpty = true
    · simp [c2] at hn
      subst hn
      decide
    · simp [c2] at hn
      exact hf n hn

theorem finalizePlants_ne_nil (t : List Char) (found : List String) :
    finalizePlants t found ≠ [] := by
  simp only [finalizePlants]
  by_cases c1 : ((all_keywords.any fun k => containsSub k.data t) && found.isEmpty) = true
  · simp [c1]
  · simp only [c1, if_false]
    by_cases c2 : found.isEmpty = true
    · simp [c2]
    · have hff : (if false = true then ["all"] else found) = found := by simp
      rw [hff, if_neg c2]
      exact fun hnil => c2 (by simp [hnil])

theorem extract_plants_good (s : String) : ∀ n ∈ extract_plants s, isCatalogName n = true := by
  have h1 : ∀ n ∈ exactPass (tokenize (lowerList s)), isCatalogName n = true :=
    foldl_exactStep_good _ _ (by intro n hn; cases hn)
  have h2 : ∀ n ∈ fuzzyPass (tokenize (lowerList s)), isCatalogName n = true :=
    foldl_fuzzyStep_good _ _ (by intro n hn; cases hn)
  intro n hn
  simp only [extract_plants] at hn
  refine finalizePlants_good _ _ ?_ n hn
  intro m hm
  split at hm
  · exact h2 m hm
  · exact h1 m hm

theorem extract_plants_ne_nil (s : String) : extract_plants s ≠ [] := by
  simp only [extract_plants]
  exact finalizePlants_ne_nil _ _

theorem isCatalogName_isSome {n : String} (h : isCatalogName n = true) :
    (plant_map.lookup n).isSome = true := by
  unfold isCatalogName at h
  cases hl : plant_map.lookup n with
  | none => rw [hl] at h; cases h
  | some c => simp

theorem lookupCodes_extract_ne_nil (s : String) :
    (lookupCodes (extract_plants s)).isEmpty = false := by
  obtain ⟨n, hn⟩ := List.exists_mem_of_ne_nil _ (extract_plants_ne_nil s)
  have hg := extract_plants_good s n hn
  unfold isCatalogName at hg
  cases hl : plant_map.lookup n with
  | none => rw [hl] at hg; cases hg
  | some c =>
    rw [hl] at hg
    have hc : c ∈ lookupCodes (extract_plants s) := by
      unfold lookupCodes
      refine List.mem_filter.mpr ⟨?_, hg⟩
      exact List.mem_filterMap.mpr ⟨some c, List.mem_map.mpr ⟨n, hn, by rw [hl]⟩, rfl⟩
    exact List.isEmpty_eq_false.mpr (List.ne_nil_of_mem hc)

/-- Strings whose first characters differ are different strings. -/
theorem ne_of_head_eq {a b : String} {ca cb : Char} (ha : a.data.head? = some ca)
    (hb : b.data.head? = some cb) (h : ca ≠ cb) : a ≠ b := fun e => by
  rw [e, hb] at ha
  exact h (Option.some.inj ha).symm

/-- With a non-empty resolved code list, no branch of `process_command`
produces the unrecognized-plants reply. -/
theorem process_reply_ne (intent : String) (plant_names : List String) (intensity : Nat)
    (bed : Option Nat) (g : Grid) (h0 : (lookupCodes plant_names).isEmpty = false) :
    (process_command intent plant_names intensity bed g).1 ≠ unknownPlantsReply := by
  simp only [process_command]
  split
  · next hemp => rw [h0] at hemp; cases hemp
  · split
    · split
      · exact ne_of_head_eq (a := "Turning on water for all plants (" ++
          intensityWord intensity ++ ").") rfl rfl (by decide)
      · exact ne_of_head_eq (a := "Turning on water for " ++ joinNames plant_names ++
          " (" ++ intensityWord intensity ++ ").") rfl rfl (by decide)
    · split
      · split
        · exact ne_of_head_eq (a := "Turning off water for all plants.") rfl rfl (by decide)
        · exact ne_of_head_eq (a := "Turning off water for " ++ joinNames plant_names ++ ".")
            rfl rfl (by decide)
      · split
        · exact ne_of_head_eq (a := statusReply g) rfl rfl (by decide)
        · show ("Sorry, I didn\x27t understand that command. Try \x27turn on basil\x27 or \x27turn off all plants\x27." : String) ≠
            unknownPlantsReply
          decide

/-! ### Bounds and counting for the status invariant -/

/-- Every branch of `process_command` leaves the grid unchanged or writes it
through `fillScope`/`applyCodes` with the given intensity or 0. -/
theorem process_snd_cases (intent : String) (plant_names : List String) (intensity : Nat)
    (bed : Option Nat) (g : Grid) :
    (process_command intent plant_names intensity bed g).2 = g ∨
    (process_command intent plant_names intensity bed g).2 = fillScope bed intensity g ∨
    (process_command intent plant_names intensity bed g).2 =
      applyCodes bed intensity (lookupCodes plant_names) g ∨
    (process_command intent plant_names intensity bed g).2 = fillScope bed 0 g ∨
    (process_command intent plant_names intensity bed g).2 =
      applyCodes bed 0 (lookupCodes plant_names) g := by
  simp only [process_command]
  split
  · exact Or.inl rfl
  · split
    · split
      · exact Or.inr (Or.inl rfl)
      · exact Or.inr (Or.inr (Or.inl rfl))
    · split
      · split
        · exact Or.inr (Or.inr (Or.inr (Or.inl rfl)))
        · exact Or.inr (Or.inr (Or.inr (Or.inr rfl)))
      · split
        · exact Or.inl rfl
        · exact Or.inl rfl

theorem fillScope_bound {g : Grid} {bed : Option Nat} {v : Nat}
    (hg : ∀ i j, g i j ≤ 2) (hv : v ≤ 2) : ∀ i j, fillScope bed v g i j ≤ 2 := by
  intro i j
  unfold fillScope
  split
  · exact hv
  · exact hg i j

theorem applyCodes_bound {g : Grid} {bed : Option Nat} {v : Nat} {codes : List String}
    (hg : ∀ i j, g i j ≤ 2) (hv : v ≤ 2) : ∀ i j, applyCodes bed v codes g i j ≤ 2 := by
  intro i j
  simp only [applyCodes_apply]
  split
  · exact hv
  · exact hg i j

theorem process_snd_bound (intent : String) (plant_names : List String) (intensity : Nat)
    (bed : Option Nat) (g : Grid) (hg : ∀ i j, g i j ≤ 2) (hv : intensity ≤ 2) :
    ∀ i j, (process_command intent plant_names intensity bed g).2 i j ≤ 2 := by
  rcases process_snd_cases intent plant_names intensity bed g with h | h | h | h | h <;> rw [h]
  · exact hg
  · exact fillScope_bound hg hv
  · exact applyCodes_bound hg hv
  · exact fillScope_bound hg (by omega)
  · exact applyCodes_bound hg (by omega)

theorem parse_intensity_le (s : String) : parse_intensity s ≤ 2 := by
  simp only [parse_intensity]
  split
  · omega
  · split <;> omega

theorem ask_snd_bound (msg : Option String) (g : Grid) (hg : ∀ i j, g i j ≤ 2) :
    ∀ i j, (ask msg g).2 i j ≤ 2 := by
  simp only [ask]
  split
  · exact hg
  · simp only [askPipeline]
    refine process_snd_bound _ _ _ _ _ hg ?_
    split
    · exact parse_intensity_le _
    · omega

theorem runMsgs_bound (msgs : List String) : ∀ i j, runMsgs msgs i j ≤ 2 := by
  have key : ∀ (ms : List String) (g : Grid), (∀ i j, g i j ≤ 2) →
      ∀ i j, (ms.foldl (fun g m => (ask (some m) g).2) g) i j ≤ 2 := by
    intro ms
    induction ms with
    | nil => intro g hg; exact hg
    | cons m ms ih => intro g hg; exact ih _ (ask_snd_bound (some m) g hg)
  exact key msgs _ (fun i j => by omega)

theorem countP_partition (g : Grid) (l : List (Fin 5 × Fin 5))
    (h : ∀ p ∈ l, g p.1 p.2 ≤ 2) :
    l.countP (fun p => g p.1 p.2 == 1) + l.countP (fun p => g p.1 p.2 == 2) +
      l.countP (fun p => g p.1 p.2 == 0) = l.length := by
  induction l with
  | nil => simp
  | cons a l ih =>
    have ha : g a.1 a.2 ≤ 2 := h a (List.mem_cons_self a l)
    have hl := ih (fun p hp => h p (List.mem_cons_of_mem a hp))
    have h3 : g a.1 a.2 = 0 ∨ g a.1 a.2 = 1 ∨ g a.1 a.2 = 2 := by omega
    simp only [List.countP_cons, List.length_cons]
    rcases h3 with h3 | h3 | h3 <;> simp [h3] <;> omega

/-- A GetStatus request leaves the grid untouched and reports the live counts. -/
theorem ask_getStatus (s : String) (g : Grid) (hc : classify_intent s = "GetStatus")
    (hne : s ≠ "") : ask (some s) g = (statusReply g, g) := by
  have hb : (s == "") = false := beq_eq_false_iff_ne.mpr hne
  have h0 := lookupCodes_extract_ne_nil s
  simp only [ask, Option.getD_some, hb, Bool.false_eq_true, if_false, askPipeline, hc]
  have e1 : (("GetStatus" : String) == "TurnOnWater") = false := rfl
  have e2 : (("GetStatus" : String) == "TurnOffWater") = false := rfl
  have e3 : (("GetStatus" : String) == "GetStatus") = true := rfl
  simp only [e1, Bool.false_eq_true, if_false]
  simp only [process_command, h0, e1, e2, e3, Bool.false_eq_true, if_false, if_true]

/-- Claim C4: from the initial all-OFF grid, any sequence of processed
commands keeps every cell in 0..2, hence the DRIP, SHOWER and OFF counts sum
to 25; and a GetStatus request mutates nothing and replies with the live
grid's drip and shower counts. -/
theorem C4_status_invariant :
    (∀ (msgs : List String) (i j : Fin 5), runMsgs msgs i j ≤ 2) ∧
    (∀ msgs : List String,
      countCells (runMsgs msgs) 1 + countCells (runMsgs msgs) 2 +
        countCells (runMsgs msgs) 0 = 25) ∧
    (∀ (s : String) (g : Grid), classify_intent s = "GetStatus" → s ≠ "" →
      ask (some s) g = (statusReply g, g)) := by
  refine ⟨runMsgs_bound, ?_, ask_getStatus⟩
  intro msgs
  have h := countP_partition (runMsgs msgs) allCells (fun p _ => runMsgs_bound msgs p.1 p.2)
  have hl : allCells.length = 25 := rfl
  rw [hl] at h
  exact h

/-- Witness for C4: the GetStatus clause at the message "status" on the
all-OFF grid. -/
theorem C4_witness :
    ask (some "status") (fun _ _ => 0) =
      ("Current watering status: 0 drip, 0 shower out of 25 plants.", fun _ _ => 0) := by
  have h := C4_status_invariant.2.2 "status" (fun _ _ => 0) (by decide) (by decide)
  exact h.trans rfl

/-- Claim C10: for every input, `extract_plants` returns a non-empty list of
catalog names, so along the /ask pipeline `process_command` never produces
the unrecognized-plants reply. -/
theorem C10_extract_safe (s : String) :
    extract_plants s ≠ [] ∧
    (∀ n ∈ extract_plants s, (plant_map.lookup n).isSome = true) ∧
    (∀ (intent : String) (intensity : Nat) (bed : Option Nat) (g : Grid),
      (process_command intent (extract_plants s) intensity bed g).1 ≠ unknownPlantsReply) := by
  refine ⟨extract_plants_ne_nil s, ?_, ?_⟩
  · intro n hn
    exact isCatalogName_isSome (extract_plants_good s n hn)
  · intro intent intensity bed g
    exact process_reply_ne intent _ intensity bed g (lookupCodes_extract_ne_nil s)

/-- Witness for C10 at the message "turn on basil" and the name "basil". -/
theorem C10_witness :
    "basil" ∈ extract_plants "turn on basil" ∧ (plant_map.lookup "basil").isSome = true :=
  ⟨by decide, (C10_extract_safe "turn on basil").2.1 "basil" (by decide)⟩

/-- Counterexample to claim C5: on "start start stop" the source's scoring
(counting keywords that are present) gives a 1-1-0 tie, hence Unknown, while
the claim's whole-word occurrence counting gives 2-1-0 and TurnOnWater. -/
theorem C5_counterexample :
    classify_intent "start start stop" = "Unknown" ∧
      spec_classify_occurrences "start start stop" = "TurnOnWater" :=
  ⟨rfl, rfl⟩

/-- Counterexample to claim C6: on "bed 6 bed two" the digit pattern matches
with the out-of-bounds index 6, and the source then also attempts the
number-word pattern, returning row 1; under the claim's only-one-pattern
semantics the call would report no location. -/
theorem C6_counterexample :
    parse_location "bed 6 bed two" = some 1 ∧
      spec_parse_location_onepass "bed 6 bed two" = none :=
  ⟨rfl, rfl⟩

/-- Counterexample to claim C7: on "basl carot" the exact pass finds nothing
and the fuzzy pass, which runs per token, collects two accepted matches, not
at most one. -/
theorem C7_counterexample :
    exactPass (tokenize (lowerList "basl carot")) = [] ∧
      extract_plants "basl carot" = ["basil", "carrot"] :=
  ⟨rfl, rfl⟩

/-- Counterexample to claim C8: "tomoto" is itself an entry of the synonym
table, so an input containing that token is resolved by the exact pass (which
therefore is non-empty, and the fuzzy pass never runs), contrary to the
claim's premise that no token matches exactly. -/
theorem C8_counterexample :
    ("tomoto", "To") ∈ PLANT_SYNONYMS ∧
      exactPass (tokenize (lowerList "water the tomoto")) = ["tomato"] ∧
      extract_plants "water the tomoto" = ["tomato"] :=
  ⟨by decide, rfl, rfl⟩

/-- Claim C5 (amended): rules are evaluated in priority order — the explicit
"turn off"/"turn of" phrase wins immediately, then "turn on" or
"water ... on", and otherwise the keyword sets are scored by the number of
the set's terms that occur at least once as a whole word (each term counted
once regardless of repetitions), strict majority winning and ties giving
Unknown. -/
theorem C5_priority_order (s : String) :
    ((turnPhrase (lowerList s) ("off".data) || turnPhrase (lowerList s) ("of".data)) = true →
      classify_intent s = "TurnOffWater") ∧
    ((turnPhrase (lowerList s) ("off".data) || turnPhrase (lowerList s) ("of".data)) = false →
      (turnPhrase (lowerList s) ("on".data) || waterOn (lowerList s)) = true →
      classify_intent s = "TurnOnWater") ∧
    ((turnPhrase (lowerList s) ("off".data) || turnPhrase (lowerList s) ("of".data)) = false →
      (turnPhrase (lowerList s) ("on".data) || waterOn (lowerList s)) = false →
      classify_intent s =
        scoreIntent (presCount (lowerList s) on_keywords) (presCount (lowerList s) off_keywords)
          (presCount (lowerList s) status_keywords)) := by
  refine ⟨?_, ?_, ?_⟩
  · intro h1
    simp [classify_intent, h1]
  · intro h1 h2
    simp [classify_intent, h1, h2]
  · intro h1 h2
    simp [classify_intent, h1, h2]

/-- Witness for C5 at concrete utterances for the first and third tiers. -/
theorem C5_witness :
    classify_intent "turn off basil" = "TurnOffWater" ∧
    classify_intent "begin watering" =
      scoreIntent (presCount (lowerList "begin watering") on_keywords)
        (presCount (lowerList "begin watering") off_keywords)
        (presCount (lowerList "begin watering") status_keywords) :=
  ⟨(C5_priority_order "turn off basil").1 (by decide),
   (C5_priority_order "begin watering").2.2 (by decide) (by decide)⟩

/-- Location result of the digit pattern, including the fallthrough the
source performs when the digit is out of bounds. -/
theorem parse_location_digit_some (s : String) (n : Nat)
    (hd : findBedDigits (lowerList s) = some n) :
    parse_location s =
      if 1 ≤ n && n ≤ 5 then some (n - 1) else bedWordResult (lowerList s) := by
  simp only [parse_location, hd]
  by_cases hb : (1 ≤ n && n ≤ 5) = true
  · simp [hb]
  · simp [hb]

theorem parse_location_digit_none (s : String) (hd : findBedDigits (lowerList s) = none) :
    parse_location s = bedWordResult (lowerList s) := by
  simp only [parse_location, hd]

theorem bedWordResult_lt (t : List Char) (k : Nat) (h : bedWordResult t = some k) : k < 5 := by
  unfold bedWordResult at h
  cases hw : findBedWordNum t with
  | none => rw [hw] at h; cases h
  | some m =>
    rw [hw] at h
    have h' : (if 1 ≤ m && m ≤ 5 then some (m - 1) else none) = some k := h
    split at h'
    · next hb =>
      injection h' with h''
      simp only [Bool.and_eq_true, decide_eq_true_eq] at hb
      omega
    · cases h'

/-- Claim C6 (amended): `parse_location` only ever returns in-bounds zero-based
indices; the digit pattern is attempted first and an in-bounds digit match
takes precedence, but when the digit pattern is absent or out of bounds the
number-word pattern is also attempted and decides the result. -/
theorem C6_location_order (s : String) :
    (∀ k, parse_location s = some k → k < 5) ∧
    (∀ n, findBedDigits (lowerList s) = some n → 1 ≤ n → n ≤ 5 →
      parse_location s = some (n - 1)) ∧
    (∀ n, findBedDigits (lowerList s) = some n → ¬(1 ≤ n ∧ n ≤ 5) →
      parse_location s = bedWordResult (lowerList s)) ∧
    (findBedDigits (lowerList s) = none →
      parse_location s = bedWordResult (lowerList s)) := by
  refine ⟨?_, ?_, ?_, parse_location_digit_none s⟩
  · intro k hk
    cases hd : findBedDigits (lowerList s) with
    | none =>
      rw [parse_location_digit_none s hd] at hk
      exact bedWordResult_lt _ k hk
    | some n =>
      rw [parse_location_digit_some s n hd] at hk
      split at hk
      · next hb =>
        injection hk with h''
        simp only [Bool.and_eq_true, decide_eq_true_eq] at hb
        omega
      · exact bedWordResult_lt _ k hk
  · intro n hd h1 h5
    rw [parse_location_digit_some s n hd]
    have hb : (1 ≤ n && n ≤ 5) = true := by
      simp only [Bool.and_eq_true, decide_eq_true_eq]
      exact ⟨h1, h5⟩
    rw [if_pos hb]
  · intro n hd hnb
    rw [parse_location_digit_some s n hd]
    have hb : (1 ≤ n && n ≤ 5) = false := by
      rw [Bool.eq_false_iff]
      intro hb
      exact hnb (by simpa [Bool.and_eq_true, decide_eq_true_eq] using hb)
    rw [hb]
    simp

/-- Witness for C6 at "bed 2" (digit pattern, in bounds). -/
theorem C6_witness : parse_location "bed 2" = some 1 :=
  (C6_location_order "bed 2").2.1 2 rfl (by omega) (by omega)

theorem appendName_length (acc : List String) (m : String) :
    (appendName acc m).length ≤ acc.length + 1 := by
  unfold appendName
  split
  · omega
  · simp

theorem addCode_length (acc : List String) (c : String) :
    (addCode acc c).length ≤ acc.length + 1 := by
  unfold addCode
  split
  · exact appendName_length acc _
  · omega

theorem fuzzyStep_length (acc : List String) (tok : String) :
    (fuzzyStep acc tok).length ≤ acc.length + 1 := by
  unfold fuzzyStep
  split
  · split
    · exact addCode_length acc _
    · omega
  · omega

theorem foldl_fuzzyStep_length (ts : List String) (acc : List String) :
    (ts.foldl fuzzyStep acc).length ≤ acc.length + ts.length := by
  induction ts generalizing acc with
  | nil => simp
  | cons t ts ih =>
    have h1 := ih (fuzzyStep acc t)
    have h2 := fuzzyStep_length acc t
    simp only [List.foldl_cons, List.length_cons]
    omega

/-- When the exact pass found something, the fuzzy pass is skipped and the
extractor returns the exact matches unchanged. -/
theorem extract_eq_exact_of_ne_nil (s : String)
    (h : exactPass (tokenize (lowerList s)) ≠ []) :
    extract_plants s = exactPass (tokenize (lowerList s)) := by
  have he : (exactPass (tokenize (lowerList s))).isEmpty = false := List.isEmpty_eq_false.mpr h
  simp only [extract_plants, he, Bool.false_and, Bool.false_eq_true, if_false]
  simp only [finalizePlants, he, Bool.and_false, Bool.false_eq_true, if_false]

/-- Claim C7 (amended): the fuzzy pass affects the result only when the exact
pass produced zero matches and at least one token exists, and it accepts at
most one candidate per token (so its total is bounded by the token count),
not at most one overall. -/
theorem C7_fuzzy_gating (s : String) :
    (exactPass (tokenize (lowerList s)) ≠ [] →
      extract_plants s = exactPass (tokenize (lowerList s))) ∧
    (tokenize (lowerList s) = [] → extract_plants s = ["all"]) ∧
    (exactPass (tokenize (lowerList s)) = [] → tokenize (lowerList s) ≠ [] →
      extract_plants s = finalizePlants (lowerList s) (fuzzyPass (tokenize (lowerList s)))) ∧
    (fuzzyPass (tokenize (lowerList s))).length ≤ (tokenize (lowerList s)).length := by
  refine ⟨extract_eq_exact_of_ne_nil s, ?_, ?_, ?_⟩
  · intro h
    have hex : exactPass ([] : List String) = [] := rfl
    by_cases hc : (all_keywords.any fun k => containsSub k.data (lowerList s)) = true <;>
      simp [extract_plants, h, hex, finalizePlants, hc]
  · intro h1 h2
    have he : (exactPass (tokenize (lowerList s))).isEmpty = true := by simp [h1]
    have ht : (tokenize (lowerList s)).isEmpty = false := List.isEmpty_eq_false.mpr h2
    simp [extract_plants, he, ht]
  · have h := foldl_fuzzyStep_length (tokenize (lowerList s)) []
    simpa [fuzzyPass] using h

/-- Witness for C7: exact-pass short-circuit, empty-token fallback, and the
fuzzy branch, each at a concrete input. -/
theorem C7_witness :
    extract_plants "turn on basil" = exactPass (tokenize (lowerList "turn on basil")) ∧
    extract_plants "123" = ["all"] ∧
    extract_plants "basl" =
      finalizePlants (lowerList "basl") (fuzzyPass (tokenize (lowerList "basl"))) :=
  ⟨(C7_fuzzy_gating "turn on basil").1 (by decide),
   (C7_fuzzy_gating "123").2.1 (by decide),
   (C7_fuzzy_gating "basl").2.2.1 (by decide) (by decide)⟩

/-- Claim C8 (amended): an input whose tokens contain "tomoto" is resolved to
Tomato by the exact synonym lookup ("tomoto" is itself a synonym-table
entry), so the exact pass is non-empty and the fuzzy pass never runs. -/
theorem C8_tomoto_exact (s : String) (h : "tomoto" ∈ tokenize (lowerList s)) :
    exactPass (tokenize (lowerList s)) ≠ [] ∧
    extract_plants s = exactPass (tokenize (lowerList s)) ∧
    "tomato" ∈ extract_plants s := by
  have hm : "tomato" ∈ exactPass (tokenize (lowerList s)) :=
    tomato_mem_foldl_exactStep _ _ h
  have hne := List.ne_nil_of_mem hm
  have heq := extract_eq_exact_of_ne_nil s hne
  refine ⟨hne, heq, ?_⟩
  rw [heq]
  exact hm

/-- Witness for C8 at "water the tomoto". -/
theorem C8_witness :
    "tomoto" ∈ tokenize (lowerList "water the tomoto") ∧
    "tomato" ∈ extract_plants "water the tomoto" :=
  ⟨by decide, (C8_tomoto_exact "water the tomoto" (by decide)).2.2⟩

end SmartPoly
